import Mathlib

/-!
# Verification of the job-application tracker's status-history core

Shallow embedding of the repository's status-lifecycle subsystem:

* `Status`, `ChangedBy` — the ENUM columns of `StatusHistory` / `JobApplication`
  (src/backend/models/Company.js, part defining the StatusHistory model;
  src/backend/models/JobApplication.js).
* `isPositiveChange` — `StatusHistory.prototype.isPositiveChange`
  (src/backend/models/Company.js, lines 316–347), including JavaScript
  `Array.prototype.indexOf` semantics (−1 when absent).
* `DB` and the route handlers of `src/unnamed/part_001`
  (`POST /api/applications`, `PUT /api/applications/:id`,
  `DELETE /api/applications/:id`, `GET /api/applications/:id`,
  `GET /api/applications/stats/overview`), with JavaScript truthiness of
  numbers (`0` falsy) modelled explicitly.

Storage faults are modelled by a boolean parameter on the operations that
marks whether the awaited insert (or the surrounding transaction) succeeds:
in the source, `POST` and `PUT` run their two writes with **no** enclosing
transaction, so a failed second write leaves the first committed, while
`DELETE` wraps everything in `sequelize.transaction()` and rolls back.
-/

/-- The 14 values of the `status` ENUM shared by `JobApplication.status`,
`StatusHistory.fromStatus` and `StatusHistory.toStatus`. -/
inductive Status where
  | interested
  | applied
  | applicationViewed
  | phoneScreening
  | technicalInterview
  | onsiteInterview
  | finalInterview
  | referenceCheck
  | offerExtended
  | offerAccepted
  | offerDeclined
  | rejected
  | withdrawn
  | onHold
deriving DecidableEq, Repr, Fintype

/-- The `changedBy` ENUM of `StatusHistory`. -/
inductive ChangedBy where
  | user
  | system
  | auto
deriving DecidableEq, Repr

namespace Status

/-- `statusProgression` array from `StatusHistory.prototype.isPositiveChange`
(src/backend/models/Company.js lines 317–328). -/
def statusProgression : List Status :=
  [interested, applied, applicationViewed, phoneScreening, technicalInterview,
   onsiteInterview, finalInterview, referenceCheck, offerExtended, offerAccepted]

/-- `negativeStatuses` array (line 330). -/
def negativeStatuses : List Status := [rejected, withdrawn, offerDeclined]

/-- `neutralStatuses` array (line 331). -/
def neutralStatuses : List Status := [onHold]

end Status

/-- JavaScript `Array.prototype.indexOf`: the index of the first occurrence,
or `-1` when the element is absent. -/
def jsIndexOf (s : Status) : List Status → Int
  | [] => -1
  | x :: xs =>
      if x = s then 0
      else
        let r := jsIndexOf s xs
        if r = -1 then -1 else r + 1

/-- `StatusHistory.prototype.isPositiveChange` (src/backend/models/Company.js
lines 316–347), as a pure function of the row's `fromStatus` and `toStatus`.
The negative/neutral checks on `toStatus` come first, then the null check on
`fromStatus`, then the `indexOf` comparison (with JavaScript's `-1` for
absent elements). -/
def isPositiveChange (fromStatus : Option Status) (toStatus : Status) : Bool :=
  if Status.negativeStatuses.contains toStatus then false
  else if Status.neutralStatuses.contains toStatus then false
  else
    match fromStatus with
    | none => true
    | some fs =>
        let fromIndex := jsIndexOf fs Status.statusProgression
        let toIndex := jsIndexOf toStatus Status.statusProgression
        decide (toIndex > fromIndex)

/-! ## Entity rows and database state -/

/-- A `companies` row (src/backend/models/Company.js); only the columns the
claims touch. -/
structure CompanyRow where
  id : Nat
  name : String
deriving DecidableEq, Repr

/-- A `job_applications` row (src/backend/models/JobApplication.js); only the
columns the route handlers of src/unnamed/part_001 read or write for the
claims: owner, company, title, status (ENUM, default `Interested`), salary
range. -/
structure Application where
  id : Nat
  userId : Nat
  companyId : Nat
  jobTitle : String
  status : Status
  salaryMin : Option Nat
  salaryMax : Option Nat
deriving DecidableEq, Repr

/-- A `status_history` row (StatusHistory model). Creation time is the row's
position in `DB.statusHistory`: the handlers only ever append. -/
structure HistoryRow where
  jobApplicationId : Nat
  fromStatus : Option Status
  toStatus : Status
  changedBy : ChangedBy
  notes : Option String
deriving DecidableEq, Repr

/-- A `documents` row (src/backend/models/Document.js); `jobApplicationId` is
a nullable foreign key. -/
structure DocumentRow where
  id : Nat
  userId : Nat
  jobApplicationId : Option Nat
  isActive : Bool
deriving DecidableEq, Repr

/-- An `application_keywords` join row. -/
structure AppKeywordRow where
  jobApplicationId : Nat
  keywordId : Nat
deriving DecidableEq, Repr

/-- The store the handlers read and write. `statusHistory` is append-only in
creation-time order. `nextAppId` supplies the fresh primary key that the ORM
generates (a UUID in the source) for `JobApplication.create`. -/
structure DB where
  applications : List Application
  statusHistory : List HistoryRow
  documents : List DocumentRow
  applicationKeywords : List AppKeywordRow
  companies : List CompanyRow
  nextAppId : Nat
deriving DecidableEq, Repr

/-! ## JavaScript helpers used by the handlers -/

/-- JavaScript truthiness of an optional number: `undefined`/`null` and `0`
are falsy. -/
def numTruthy : Option Nat → Bool
  | none => false
  | some n => n != 0

/-- JavaScript `a || b` on optional numbers (`req.body.salaryMin ||
application.salaryMin` in the PUT handler). -/
def jsOrNum (a b : Option Nat) : Option Nat :=
  if numTruthy a then a else b

/-- The salary-range guard `if (salaryMin && salaryMax && salaryMin >
salaryMax)` shared by the POST and PUT handlers: it fires only when both
operands are truthy (so a value of `0` disables it). -/
def salaryRangeBad (mn mx : Option Nat) : Bool :=
  numTruthy mn && numTruthy mx && decide (mn.getD 0 > mx.getD 0)

/-- `String.prototype.trim`, written over the character list so that it
evaluates by kernel reduction. -/
def strTrim (s : String) : String :=
  String.mk (((s.data.dropWhile Char.isWhitespace).reverse.dropWhile
    Char.isWhitespace).reverse)

/-- String length as the character count. -/
def strLength (s : String) : Nat :=
  s.data.length

/-- `body('jobTitle').trim().isLength({ min: 2, max: 100 })`. -/
def jobTitleValid (t : String) : Bool :=
  2 ≤ strLength (strTrim t) && strLength (strTrim t) ≤ 100

/-- `req.body.statusNotes || null`: the empty string is falsy. -/
def jsOrNullStr : Option String → Option String
  | none => none
  | some s => if strLength s != 0 then some s else none

/-- `Option` field overwrite for `application.update(req.body)`: a field
present in the body replaces the stored value, an absent field keeps it. -/
def fieldUpd {α : Type} (new old : Option α) : Option α :=
  match new with
  | some v => some v
  | none => old

/-! ## Requests and results -/

/-- Body of `POST /api/applications` after express-validator typing;
`status` is absent-or-valid (the model ENUM), defaulting to `Interested`. -/
structure CreateReq where
  userId : Nat
  companyId : Option Nat
  jobTitle : String
  status : Option Status
  salaryMin : Option Nat
  salaryMax : Option Nat
deriving DecidableEq, Repr

/-- Body of `PUT /api/applications/:id`: every field optional. -/
structure UpdateReq where
  jobTitle : Option String
  status : Option Status
  salaryMin : Option Nat
  salaryMax : Option Nat
  statusNotes : Option String
deriving DecidableEq, Repr

inductive CreateResult where
  | validationFailed
  | companyIdRequired
  | companyNotFound
  | invalidSalaryRange
  | created (app : Application)
  | serverError
deriving DecidableEq, Repr

inductive UpdateResult where
  | validationFailed
  | notFound
  | invalidSalaryRange
  | updated
  | serverError
deriving DecidableEq, Repr

inductive DeleteResult where
  | notFound
  | deleted
  | serverError
deriving DecidableEq, Repr

/-! ## The handlers -/

/-- The ownership-scoped lookup `JobApplication.findOne({ where: { id:
req.params.id, userId: req.user.userId } })` shared by the GET-one, PUT and
DELETE handlers. -/
def findOwned (db : DB) (aid uid : Nat) : Option Application :=
  db.applications.find? (fun a => a.id == aid && a.userId == uid)

/-- `GET /api/applications/:id` (part_001 lines 115–169): returns the
application only when the ownership-scoped lookup finds it. -/
def getApplication (db : DB) (uid aid : Nat) : Option Application :=
  findOwned db aid uid

/-- `application.update(req.body)` for the fields the embedding tracks. -/
def applyUpdate (a : Application) (u : UpdateReq) : Application :=
  { a with
    jobTitle := (u.jobTitle.map strTrim).getD a.jobTitle
    status := u.status.getD a.status
    salaryMin := fieldUpd u.salaryMin a.salaryMin
    salaryMax := fieldUpd u.salaryMax a.salaryMax }

/-- `POST /api/applications` (part_001 lines 174–296). Steps in source
order: validator errors; company id required and resolvable; the truthy
salary-range guard; `JobApplication.create`; then `StatusHistory.create`
for the initial row. The two creates have no enclosing transaction, so
`histInsertOk = false` (the awaited history insert throwing) reaches the
catch block with the application row already committed. -/
def createApplicationWith (histInsertOk : Bool) (db : DB) (r : CreateReq) :
    CreateResult × DB :=
  if !jobTitleValid r.jobTitle then (.validationFailed, db)
  else
    match r.companyId with
    | none => (.companyIdRequired, db)
    | some cid =>
        if !db.companies.any (fun c => c.id == cid) then (.companyNotFound, db)
        else if salaryRangeBad r.salaryMin r.salaryMax then (.invalidSalaryRange, db)
        else
          let app : Application :=
            { id := db.nextAppId, userId := r.userId, companyId := cid,
              jobTitle := strTrim r.jobTitle, status := r.status.getD .interested,
              salaryMin := r.salaryMin, salaryMax := r.salaryMax }
          let db1 : DB :=
            { db with applications := db.applications ++ [app],
                      nextAppId := db.nextAppId + 1 }
          if histInsertOk then
            (.created app,
             { db1 with statusHistory := db1.statusHistory ++
                 [{ jobApplicationId := app.id, fromStatus := none,
                    toStatus := app.status, changedBy := .user, notes := none }] })
          else (.serverError, db1)

/-- The success path of `POST /api/applications`. -/
def createApplication (db : DB) (r : CreateReq) : CreateResult × DB :=
  createApplicationWith true db r

/-- `PUT /api/applications/:id` (part_001 lines 301–430). Steps in source
order: validator errors; ownership-scoped lookup; the salary guard over
`req.body.salaryMin || application.salaryMin` (and likewise max);
`application.update(req.body)`; then, iff a status is present and differs
from the old one, `StatusHistory.create`. No enclosing transaction: with
`histInsertOk = false` the status write stays committed. -/
def updateApplicationWith (histInsertOk : Bool) (db : DB) (uid aid : Nat)
    (u : UpdateReq) : UpdateResult × DB :=
  if !(u.jobTitle.map jobTitleValid).getD true then (.validationFailed, db)
  else
    match findOwned db aid uid with
    | none => (.notFound, db)
    | some app =>
        if salaryRangeBad (jsOrNum u.salaryMin app.salaryMin)
            (jsOrNum u.salaryMax app.salaryMax) then (.invalidSalaryRange, db)
        else
          let oldStatus := app.status
          let apps1 :=
            db.applications.map (fun a => if a.id == app.id then applyUpdate a u else a)
          let db1 : DB := { db with applications := apps1 }
          match u.status with
          | some ns =>
              if ns ≠ oldStatus then
                if histInsertOk then
                  (.updated,
                   { db1 with statusHistory := db1.statusHistory ++
                       [{ jobApplicationId := app.id, fromStatus := some oldStatus,
                          toStatus := ns, changedBy := .user,
                          notes := jsOrNullStr u.statusNotes }] })
                else (.serverError, db1)
              else (.updated, db1)
          | none => (.updated, db1)

/-- The success path of `PUT /api/applications/:id`. -/
def updateApplication (db : DB) (uid aid : Nat) (u : UpdateReq) :
    UpdateResult × DB :=
  updateApplicationWith true db uid aid u

/-- `DELETE /api/applications/:id` (part_001 lines 435–494). Everything runs
inside `sequelize.transaction()`: not-found rolls back the empty
transaction; on success the handler deletes, in order, the application's
StatusHistory rows, ApplicationKeyword rows, Document rows with matching
`jobApplicationId`, and finally the application row, and commits; any error
(`txnOk = false`) rolls the whole transaction back, leaving the store
unchanged. -/
def deleteApplicationWith (txnOk : Bool) (db : DB) (uid aid : Nat) :
    DeleteResult × DB :=
  match findOwned db aid uid with
  | none => (.notFound, db)
  | some app =>
      if txnOk then
        (.deleted,
         { db with
             statusHistory :=
               db.statusHistory.filter (fun h => h.jobApplicationId != app.id)
             applicationKeywords :=
               db.applicationKeywords.filter (fun k => k.jobApplicationId != app.id)
             documents :=
               db.documents.filter (fun d => d.jobApplicationId != some app.id)
             applications :=
               db.applications.filter (fun a => a.id != app.id) })
      else (.serverError, db)

/-- The success path of `DELETE /api/applications/:id`. -/
def deleteApplication (db : DB) (uid aid : Nat) : DeleteResult × DB :=
  deleteApplicationWith true db uid aid

/-! ## Overview statistics (`GET /api/applications/stats/overview`,
part_001 lines 499–575) -/

/-- The "received any response" status set of the `responseCount` query
(part_001 lines 546–550). -/
def responseStatuses : List Status :=
  [.applicationViewed, .phoneScreening, .technicalInterview, .onsiteInterview,
   .finalInterview, .referenceCheck, .offerExtended, .offerAccepted,
   .offerDeclined]

/-- `JobApplication.count({ where: { userId, status: { [Op.ne]:
'Interested' } } })`. -/
def appliedCount (db : DB) (uid : Nat) : Nat :=
  db.applications.countP (fun a => a.userId == uid && a.status != Status.interested)

/-- `JobApplication.count({ where: { userId, status: { [Op.in]: [...] } } })`. -/
def responseCount (db : DB) (uid : Nat) : Nat :=
  db.applications.countP (fun a => a.userId == uid && responseStatuses.contains a.status)

/-- ECMAScript `Number.prototype.toFixed(1)` on a non-negative value,
followed by `parseFloat`: the nearest multiple of 1/10, ties rounded up. -/
def jsToFixed1 (x : ℚ) : ℚ :=
  ((⌊x * 10 + 1 / 2⌋ : ℤ) : ℚ) / 10

/-- `appliedCount > 0 ? (responseCount / appliedCount * 100).toFixed(1) : 0`
(part_001 line 555), with JavaScript number arithmetic modelled over ℚ. -/
def responseRate (db : DB) (uid : Nat) : ℚ :=
  if appliedCount db uid > 0 then
    jsToFixed1 ((responseCount db uid : ℚ) / (appliedCount db uid : ℚ) * 100)
  else 0

/-! ## Operation sequences and invariants -/

/-- One client operation on the store, as in the claims about invariant
preservation: a create, an update, or a delete, each running its handler's
success path (every storage write succeeds). -/
inductive Op where
  | createOp (r : CreateReq)
  | updateOp (uid aid : Nat) (u : UpdateReq)
  | deleteOp (uid aid : Nat)
deriving DecidableEq, Repr

def applyOp (db : DB) : Op → DB
  | .createOp r => (createApplication db r).2
  | .updateOp uid aid u => (updateApplication db uid aid u).2
  | .deleteOp uid aid => (deleteApplication db uid aid).2

def runOps (db : DB) (ops : List Op) : DB :=
  ops.foldl applyOp db

/-- The StatusHistory rows of one application, in creation-time order. -/
def historyFor (l : List HistoryRow) (i : Nat) : List HistoryRow :=
  l.filter (fun h => h.jobApplicationId == i)

/-- `toStatus` of an application's most recent StatusHistory row. -/
def latestToStatus (l : List HistoryRow) (i : Nat) : Option Status :=
  (historyFor l i).getLast?.map HistoryRow.toStatus

/-- Well-formedness the ORM guarantees: primary keys already issued are
below the generator's next value, history rows only reference issued keys,
and application primary keys are pairwise distinct. -/
def IdsWF (db : DB) : Prop :=
  (∀ a ∈ db.applications, a.id < db.nextAppId) ∧
  (∀ h ∈ db.statusHistory, h.jobApplicationId < db.nextAppId) ∧
  db.applications.Pairwise (fun a b => a.id ≠ b.id)

instance (db : DB) : Decidable (IdsWF db) := by
  unfold IdsWF; infer_instance

/-- The aggregate/ledger consistency invariant: every stored application's
live `status` equals the `toStatus` of its most recent history row. -/
def HistInv (db : DB) : Prop :=
  ∀ a ∈ db.applications, latestToStatus db.statusHistory a.id = some a.status

instance (db : DB) : Decidable (HistInv db) := by
  unfold HistInv; infer_instance

/-! ## Concrete fixtures for witnesses and counterexamples -/

/-- A store holding one company and nothing else. -/
def companyOnlyDB : DB :=
  { applications := [], statusHistory := [], documents := [],
    applicationKeywords := [], companies := [{ id := 1, name := "Acme" }],
    nextAppId := 0 }

/-- A well-formed create request. -/
def goodCreateReq : CreateReq :=
  { userId := 1, companyId := some 1, jobTitle := "Engineer", status := none,
    salaryMin := none, salaryMax := none }

/-- A create request whose salary range is inverted with `salaryMax = 0`. -/
def badSalaryReq : CreateReq :=
  { userId := 1, companyId := some 1, jobTitle := "Engineer", status := none,
    salaryMin := some 5, salaryMax := some 0 }

/-- An application of user 1 in status `Applied`. -/
def appA : Application :=
  { id := 0, userId := 1, companyId := 1, jobTitle := "Engineer",
    status := .applied, salaryMin := none, salaryMax := none }

/-- The initial history row of `appA`. -/
def rowA : HistoryRow :=
  { jobApplicationId := 0, fromStatus := none, toStatus := .applied,
    changedBy := .user, notes := none }

/-- A store holding `appA` with its consistent one-row ledger. -/
def dbA : DB :=
  { applications := [appA], statusHistory := [rowA], documents := [],
    applicationKeywords := [], companies := [{ id := 1, name := "Acme" }],
    nextAppId := 1 }

/-- An update request that moves the status to `Offer Extended`. -/
def updToOffer : UpdateReq :=
  { jobTitle := none, status := some .offerExtended, salaryMin := none,
    salaryMax := none, statusNotes := none }

/-- An update request that re-submits the current status `Applied`. -/
def updToApplied : UpdateReq :=
  { jobTitle := none, status := some .applied, salaryMin := none,
    salaryMax := none, statusNotes := none }

/-- An application of a second user (user 2), under a distinct primary
key. -/
def appB : Application :=
  { id := 1, userId := 2, companyId := 1, jobTitle := "Designer",
    status := .interested, salaryMin := none, salaryMax := none }

/-- The initial history row of `appB`. -/
def rowB : HistoryRow :=
  { jobApplicationId := 1, fromStatus := none, toStatus := .interested,
    changedBy := .user, notes := none }

/-- A store holding the applications of two different users. -/
def dbTwo : DB :=
  { applications := [appA, appB], statusHistory := [rowA, rowB],
    documents := [], applicationKeywords := [],
    companies := [{ id := 1, name := "Acme" }], nextAppId := 2 }

/-- A store for exercising the delete cascade: `appA` with its ledger, one
keyword link, one linked document, one unlinked document, and the company. -/
def dbDel : DB :=
  { applications := [appA], statusHistory := [rowA],
    documents :=
      [{ id := 10, userId := 1, jobApplicationId := some 0, isActive := true },
       { id := 11, userId := 1, jobApplicationId := none, isActive := true }],
    applicationKeywords := [{ jobApplicationId := 0, keywordId := 7 }],
    companies := [{ id := 1, name := "Acme" }], nextAppId := 1 }

/-! ## Spec-side definitions for the overview statistics (claim wording) -/

/-- The claim's "received any response" status set, spelled as a
predicate. -/
def specIsResponse (s : Status) : Prop :=
  s = .applicationViewed ∨ s = .phoneScreening ∨ s = .technicalInterview ∨
  s = .onsiteInterview ∨ s = .finalInterview ∨ s = .referenceCheck ∨
  s = .offerExtended ∨ s = .offerAccepted ∨ s = .offerDeclined

instance : DecidablePred specIsResponse := fun s => by
  unfold specIsResponse; infer_instance

/-- The claim's applied count: the number of the user's applications whose
status differs from `Interested`. -/
def specAppliedCount (db : DB) (uid : Nat) : Nat :=
  (db.applications.filter
    (fun a => decide (a.userId = uid ∧ a.status ≠ Status.interested))).length

/-- The claim's response count: the number of the user's applications whose
status is in the response set. -/
def specResponseCount (db : DB) (uid : Nat) : Nat :=
  (db.applications.filter
    (fun a => decide (a.userId = uid ∧ specIsResponse a.status))).length

/-- The claim's response rate: `responseCount / appliedCount * 100` rounded
to one decimal place, and exactly `0` when the applied count is zero. -/
def specResponseRate (db : DB) (uid : Nat) : ℚ :=
  if specAppliedCount db uid = 0 then 0
  else jsToFixed1 ((specResponseCount db uid : ℚ) / (specAppliedCount db uid : ℚ) * 100)

/-! ## C6 / C7: the derived transition classification -/

/-- C6 counterexample: a row with `fromStatus = null` and `toStatus =
Rejected` is classified not positive (the negative-set check on `toStatus`
runs before the null check on `fromStatus`), contradicting the claim that
every null-`fromStatus` row is positive for all 14 `toStatus` values. -/
theorem nullFrom_rejected_not_positive :
    isPositiveChange none Status.rejected = false := by decide

/-- C6 amended: a row with `fromStatus = null` is classified positive
exactly when its `toStatus` is outside the negative set
{Rejected, Withdrawn, Offer Declined} and the neutral set {On Hold};
for those four terminal values the row is not positive. -/
theorem nullFrom_positive_iff_not_terminal :
    ∀ t : Status, isPositiveChange none t
      = !(Status.negativeStatuses.contains t || Status.neutralStatuses.contains t) := by
  decide

/-- C7 counterexample: `fromStatus = Rejected` is absent from the
progression list, yet the transition to `Applied` classifies as positive
(JavaScript `indexOf` yields −1 for the absent element, and every found
index exceeds −1), contradicting the fail-closed claim. -/
theorem absentFrom_rejected_to_applied_positive :
    isPositiveChange (some Status.rejected) Status.applied = true := by decide

/-- C7 amended: for every `fromStatus` that is non-null but absent from the
progression list, the classification is positive exactly when `toStatus`
is in the progression list — it fails open for forward-pipeline targets
instead of resolving to not positive. -/
theorem absentFrom_positive_iff_to_in_progression :
    ∀ fs t : Status, Status.statusProgression.contains fs = false →
      isPositiveChange (some fs) t = Status.statusProgression.contains t := by
  decide

/-- Witness for the C7 amended theorem at `fromStatus = Withdrawn`,
`toStatus = Phone Screening`. -/
theorem absentFrom_positive_iff_witness :
    Status.statusProgression.contains Status.withdrawn = false ∧
    isPositiveChange (some Status.withdrawn) Status.phoneScreening
      = Status.statusProgression.contains Status.phoneScreening :=
  ⟨by decide,
   absentFrom_positive_iff_to_in_progression Status.withdrawn
     Status.phoneScreening (by decide)⟩

/-! ## C9: the salary-range guard -/

/-- C9: `POST /api/applications` with `salaryMin = 5, salaryMax = 0` (both
pass the validators, which only require integers ≥ 0) is not rejected:
`salaryMax = 0` is falsy, so the guard `salaryMin && salaryMax &&
salaryMin > salaryMax` is skipped and the application is stored with
`salaryMin > salaryMax`. -/
theorem create_stores_salary_min_gt_max :
    (createApplication companyOnlyDB badSalaryReq).1
      = CreateResult.created
          { id := 0, userId := 1, companyId := 1, jobTitle := "Engineer",
            status := .interested, salaryMin := some 5, salaryMax := some 0 }
    ∧ (createApplication companyOnlyDB badSalaryReq).2.applications
      = [{ id := 0, userId := 1, companyId := 1, jobTitle := "Engineer",
           status := .interested, salaryMin := some 5, salaryMax := some 0 }]
    ∧ ∀ a ∈ (createApplication companyOnlyDB badSalaryReq).2.applications,
        a.salaryMin.getD 0 > a.salaryMax.getD 0 := by
  refine ⟨by decide, by decide, ?_⟩
  decide

/-! ## Ledger helper lemmas -/

theorem historyFor_append (l₁ l₂ : List HistoryRow) (i : Nat) :
    historyFor (l₁ ++ l₂) i = historyFor l₁ i ++ historyFor l₂ i :=
  List.filter_append ..

theorem latestToStatus_append_match (l : List HistoryRow) (row : HistoryRow)
    (i : Nat) (h : row.jobApplicationId = i) :
    latestToStatus (l ++ [row]) i = some row.toStatus := by
  unfold latestToStatus
  rw [historyFor_append]
  have hrow : historyFor [row] i = [row] := by
    unfold historyFor; simp [h]
  rw [hrow, List.getLast?_concat]
  rfl

theorem latestToStatus_append_nomatch (l : List HistoryRow) (row : HistoryRow)
    (i : Nat) (h : row.jobApplicationId ≠ i) :
    latestToStatus (l ++ [row]) i = latestToStatus l i := by
  unfold latestToStatus
  rw [historyFor_append]
  have hrow : historyFor [row] i = [] := by
    unfold historyFor; simp [h]
  rw [hrow, List.append_nil]

theorem latestToStatus_filter_ne (l : List HistoryRow) (i j : Nat) (h : i ≠ j) :
    latestToStatus (l.filter (fun r => r.jobApplicationId != j)) i
      = latestToStatus l i := by
  unfold latestToStatus historyFor
  rw [List.filter_filter]
  have heq : List.filter
      (fun a => a.jobApplicationId == i && a.jobApplicationId != j) l
      = List.filter (fun r => r.jobApplicationId == i) l := by
    apply List.filter_congr
    intro r _
    by_cases hr : r.jobApplicationId = i
    · simp [hr, h, Ne.symm h]
    · simp [hr]
  rw [heq]

/-- Distinct primary keys identify rows: two stored applications with the
same id are the same row. -/
theorem unique_by_id {l : List Application}
    (hpw : l.Pairwise (fun a b => a.id ≠ b.id)) {a b : Application}
    (ha : a ∈ l) (hb : b ∈ l) (hid : a.id = b.id) : a = b := by
  induction l with
  | nil => exact absurd ha (List.not_mem_nil a)
  | cons x xs ih =>
      rw [List.pairwise_cons] at hpw
      rcases List.mem_cons.mp ha with rfl | ha'
      · rcases List.mem_cons.mp hb with rfl | hb'
        · rfl
        · exact absurd hid (hpw.1 b hb')
      · rcases List.mem_cons.mp hb with rfl | hb'
        · exact absurd hid.symm (hpw.1 a ha')
        · exact ih hpw.2 ha' hb'

theorem applyUpdate_id (a : Application) (u : UpdateReq) :
    (applyUpdate a u).id = a.id := rfl

/-- When the only stored application under `aid` belongs to another user,
the ownership-scoped lookup comes back empty. -/
theorem findOwned_other_user_none {db : DB} {u v aid : Nat} {app : Application}
    (hpw : db.applications.Pairwise (fun a b => a.id ≠ b.id))
    (hmem : app ∈ db.applications) (hid : app.id = aid) (hown : app.userId = v)
    (hne : u ≠ v) : findOwned db aid u = none := by
  unfold findOwned
  rw [List.find?_eq_none]
  intro a ha
  simp only [Bool.and_eq_true, beq_iff_eq, not_and]
  intro haid
  have haeq : a = app := unique_by_id hpw ha hmem (by rw [haid, hid])
  subst haeq
  rw [hown]
  exact fun h => hne h.symm

/-! ## Invariant preservation of the three mutating handlers -/

theorem create_preserves (db : DB) (r : CreateReq)
    (hWF : IdsWF db) (hInv : HistInv db) :
    IdsWF (createApplication db r).2 ∧ HistInv (createApplication db r).2 := by
  unfold createApplication createApplicationWith
  by_cases ht : jobTitleValid r.jobTitle
  case neg => simpa [ht] using ⟨hWF, hInv⟩
  case pos =>
  cases hcid : r.companyId with
  | none => simpa [ht] using ⟨hWF, hInv⟩
  | some cid =>
  by_cases hc : db.companies.any (fun c => c.id == cid)
  case neg => simpa [ht, hc] using ⟨hWF, hInv⟩
  case pos =>
  by_cases hs : salaryRangeBad r.salaryMin r.salaryMax
  case pos => simpa [ht, hc, hs] using ⟨hWF, hInv⟩
  case neg =>
  simp only [ht, hc, hs, Bool.not_true, Bool.false_eq_true, if_false, ite_true,
    ite_false, if_pos, Bool.not_false]
  obtain ⟨hA, hH, hP⟩ := hWF
  constructor
  · refine ⟨?_, ?_, ?_⟩
    · intro a ha
      rcases List.mem_append.mp ha with ha' | ha'
      · exact Nat.lt_succ_of_lt (hA a ha')
      · rcases List.mem_singleton.mp ha' with rfl
        exact Nat.lt_succ_self _
    · intro h hh
      rcases List.mem_append.mp hh with hh' | hh'
      · exact Nat.lt_succ_of_lt (hH h hh')
      · rcases List.mem_singleton.mp hh' with rfl
        exact Nat.lt_succ_self _
    · rw [List.pairwise_append]
      refine ⟨hP, List.pairwise_singleton _ _, ?_⟩
      intro a ha b hb
      rcases List.mem_singleton.mp hb with rfl
      exact Nat.ne_of_lt (hA a ha)
  · intro a ha
    rcases List.mem_append.mp ha with ha' | ha'
    · rw [latestToStatus_append_nomatch]
      · exact hInv a ha'
      · exact Nat.ne_of_gt (hA a ha')
    · rcases List.mem_singleton.mp ha' with rfl
      rw [latestToStatus_append_match]
      rfl

theorem update_preserves (db : DB) (uid aid : Nat) (u : UpdateReq)
    (hWF : IdsWF db) (hInv : HistInv db) :
    IdsWF (updateApplication db uid aid u).2
      ∧ HistInv (updateApplication db uid aid u).2 := by
  unfold updateApplication updateApplicationWith
  by_cases ht : (u.jobTitle.map jobTitleValid).getD true
  case neg => simpa [ht] using ⟨hWF, hInv⟩
  case pos =>
  cases hfind : findOwned db aid uid with
  | none => simpa [ht, hfind] using ⟨hWF, hInv⟩
  | some app =>
  by_cases hs : salaryRangeBad (jsOrNum u.salaryMin app.salaryMin)
      (jsOrNum u.salaryMax app.salaryMax)
  case pos => simpa [ht, hfind, hs] using ⟨hWF, hInv⟩
  case neg =>
  obtain ⟨hA, hH, hP⟩ := hWF
  have hmem : app ∈ db.applications := List.mem_of_find?_eq_some hfind
  set f : Application → Application :=
    fun a => if a.id == app.id then applyUpdate a u else a with hf
  have hfid : ∀ a : Application, (f a).id = a.id := by
    intro a
    simp only [hf]
    by_cases h : a.id == app.id
    · rw [if_pos h]; rfl
    · rw [if_neg h]
  have hWF1 : (∀ a ∈ db.applications.map f, a.id < db.nextAppId) ∧
      (db.applications.map f).Pairwise (fun a b => a.id ≠ b.id) := by
    constructor
    · intro b hb
      rcases List.mem_map.mp hb with ⟨a, ha, rfl⟩
      rw [hfid]
      exact hA a ha
    · rw [List.pairwise_map]
      apply hP.imp
      intro a b hab
      rw [hfid, hfid]
      exact hab
  have hstat : ∀ b ∈ db.applications.map f,
      ∃ a ∈ db.applications, b = f a ∧ b.id = a.id := by
    intro b hb
    rcases List.mem_map.mp hb with ⟨a, ha, rfl⟩
    exact ⟨a, ha, rfl, hfid a⟩
  cases hus : u.status with
  | none =>
      simp only [ht, hfind, hs, hus, Bool.not_true, Bool.false_eq_true, if_false,
        ite_true, ite_false]
      refine ⟨⟨hWF1.1, hH, hWF1.2⟩, ?_⟩
      intro b hb
      rcases hstat b hb with ⟨a, ha, rfl, hid⟩
      have hbs : (f a).status = a.status := by
        simp only [hf]
        by_cases h : a.id == app.id
        · rw [if_pos h]; simp [applyUpdate, hus]
        · rw [if_neg h]
      rw [hid, hbs]
      exact hInv a ha
  | some ns =>
      by_cases hne : ns = app.status
      · simp only [ht, hfind, hs, hus, hne, Bool.not_true, Bool.false_eq_true,
          if_false, ite_true, ite_false, ne_eq, not_true_eq_false]
        refine ⟨⟨hWF1.1, hH, hWF1.2⟩, ?_⟩
        intro b hb
        rcases hstat b hb with ⟨a, ha, rfl, hid⟩
        have hbs : (f a).status = a.status := by
          simp only [hf]
          by_cases h : a.id == app.id
          · rw [if_pos h]
            have haeq : a = app := unique_by_id hP ha hmem (by simpa using h)
            simp only [applyUpdate, hus, Option.getD_some]
            rw [hne, haeq]
          · rw [if_neg h]
        rw [hid, hbs]
        exact hInv a ha
      · simp only [ht, hfind, hs, hus, hne, Bool.not_true, Bool.false_eq_true,
          if_false, ite_true, ite_false, ne_eq, not_false_eq_true]
        constructor
        · refine ⟨hWF1.1, ?_, hWF1.2⟩
          intro h hh
          rcases List.mem_append.mp hh with hh' | hh'
          · exact hH h hh'
          · rcases List.mem_singleton.mp hh' with rfl
            exact hA app hmem
        · intro b hb
          rcases hstat b hb with ⟨a, ha, rfl, hid⟩
          by_cases h : a.id == app.id
          · have haeq : a = app := unique_by_id hP ha hmem (by simpa using h)
            subst haeq
            have hbs : (f a).status = ns := by
              simp only [hf]
              rw [if_pos h]
              simp [applyUpdate, hus]
            rw [hid, hbs, latestToStatus_append_match]
            rfl
          · have hbs : f a = a := by
              simp only [hf]; rw [if_neg h]
            rw [hid, hbs, latestToStatus_append_nomatch]
            · exact hInv a ha
            · simp only [beq_iff_eq] at h
              exact fun hcontra => h hcontra.symm

theorem delete_preserves (db : DB) (uid aid : Nat)
    (hWF : IdsWF db) (hInv : HistInv db) :
    IdsWF (deleteApplication db uid aid).2
      ∧ HistInv (deleteApplication db uid aid).2 := by
  unfold deleteApplication deleteApplicationWith
  cases hfind : findOwned db aid uid with
  | none => simpa using ⟨hWF, hInv⟩
  | some app =>
  obtain ⟨hA, hH, hP⟩ := hWF
  simp only [ite_true]
  constructor
  · refine ⟨?_, ?_, ?_⟩
    · intro a ha
      exact hA a (List.mem_of_mem_filter ha)
    · intro h hh
      exact hH h (List.mem_of_mem_filter hh)
    · exact hP.sublist (List.filter_sublist _)
  · intro b hb
    have hb' := List.mem_filter.mp hb
    have hbne : b.id ≠ app.id := by
      have := hb'.2
      simpa using this
    rw [latestToStatus_filter_ne _ _ _ hbne]
    exact hInv b hb'.1

theorem applyOp_preserves (db : DB) (op : Op)
    (hWF : IdsWF db) (hInv : HistInv db) :
    IdsWF (applyOp db op) ∧ HistInv (applyOp db op) := by
  cases op with
  | createOp r => exact create_preserves db r hWF hInv
  | updateOp uid aid u => exact update_preserves db uid aid u hWF hInv
  | deleteOp uid aid => exact delete_preserves db uid aid hWF hInv

theorem runOps_preserves (ops : List Op) (db : DB)
    (hWF : IdsWF db) (hInv : HistInv db) :
    IdsWF (runOps db ops) ∧ HistInv (runOps db ops) := by
  induction ops generalizing db with
  | nil => exact ⟨hWF, hInv⟩
  | cons op rest ih =>
      have h := applyOp_preserves db op hWF hInv
      exact ih (applyOp db op) h.1 h.2

/-! ## Claim theorems -/

/-- C1: for every job application that exists after any sequence of
createApplication, updateApplication and deleteApplication operations (run
from a well-formed store), the `toStatus` of its most recent StatusHistory
row — by creation time — equals the application's live `status` field. -/
theorem latest_history_matches_live_status (db : DB) (ops : List Op)
    (hWF : IdsWF db) (hInv : HistInv db) :
    ∀ app ∈ (runOps db ops).applications,
      latestToStatus (runOps db ops).statusHistory app.id = some app.status :=
  fun app hmem => (runOps_preserves ops db hWF hInv).2 app hmem

/-- Witness for C1: create an application, then move it to
`Offer Extended`; its latest history row carries `Offer Extended`. -/
theorem latest_history_matches_live_status_witness :
    IdsWF companyOnlyDB ∧ HistInv companyOnlyDB ∧
    latestToStatus (runOps companyOnlyDB
        [Op.createOp goodCreateReq, Op.updateOp 1 0 updToOffer]).statusHistory
        ({ id := 0, userId := 1, companyId := 1, jobTitle := "Engineer",
           status := .offerExtended, salaryMin := none,
           salaryMax := none } : Application).id
      = some Status.offerExtended :=
  ⟨by decide, by decide,
   latest_history_matches_live_status companyOnlyDB
     [Op.createOp goodCreateReq, Op.updateOp 1 0 updToOffer]
     (by decide) (by decide) _ (by decide)⟩

/-- C2 counterexample: in `PUT /api/applications/:id` there is no
transaction around the status write and the history insert. With the
history insert failing (`histInsertOk = false`) on the transition
`Applied → Offer Extended`, the handler answers 500 but the status write
remains committed and no history row exists for it. -/
theorem update_commits_status_without_history :
    (updateApplicationWith false dbA 1 0 updToOffer).1 = UpdateResult.serverError
    ∧ (updateApplicationWith false dbA 1 0 updToOffer).2.statusHistory
        = dbA.statusHistory
    ∧ (updateApplicationWith false dbA 1 0 updToOffer).2.applications
        = [{ appA with status := Status.offerExtended }] :=
  ⟨by decide, by decide, by decide⟩

/-- C2 amended: on a real status transition the handler writes the new
status and then inserts the StatusHistory row
`{fromStatus: oldStatus, toStatus: newStatus}`, but the two writes are not
one atomic unit: when the history insert succeeds both writes land; when it
fails, the status write is still observed as committed while the ledger is
unchanged. -/
theorem update_status_write_and_history_row (db : DB) (uid aid : Nat)
    (u : UpdateReq) (app : Application) (ns : Status)
    (htitle : (u.jobTitle.map jobTitleValid).getD true = true)
    (hfind : findOwned db aid uid = some app)
    (hsal : salaryRangeBad (jsOrNum u.salaryMin app.salaryMin)
      (jsOrNum u.salaryMax app.salaryMax) = false)
    (hstat : u.status = some ns) (hne : ns ≠ app.status) :
    (updateApplicationWith true db uid aid u).2.statusHistory
        = db.statusHistory ++
          [{ jobApplicationId := app.id, fromStatus := some app.status,
             toStatus := ns, changedBy := .user,
             notes := jsOrNullStr u.statusNotes }]
    ∧ (updateApplicationWith true db uid aid u).2.applications
        = db.applications.map (fun a => if a.id == app.id then applyUpdate a u else a)
    ∧ (updateApplicationWith false db uid aid u).1 = .serverError
    ∧ (updateApplicationWith false db uid aid u).2.statusHistory = db.statusHistory
    ∧ (updateApplicationWith false db uid aid u).2.applications
        = db.applications.map (fun a => if a.id == app.id then applyUpdate a u else a) := by
  simp only [updateApplicationWith, htitle, hfind, hsal, hstat, Bool.not_true,
    Bool.false_eq_true, if_false, if_neg, hne, ite_true, ite_false, if_pos]
  simp [hne]

/-- Witness for the C2 amended theorem on the transition
`Applied → Offer Extended` of `appA`. -/
theorem update_status_write_and_history_row_witness :
    (updateApplicationWith true dbA 1 0 updToOffer).2.statusHistory
        = dbA.statusHistory ++
          [{ jobApplicationId := appA.id, fromStatus := some appA.status,
             toStatus := Status.offerExtended, changedBy := .user,
             notes := jsOrNullStr updToOffer.statusNotes }]
    ∧ (updateApplicationWith false dbA 1 0 updToOffer).2.statusHistory
        = dbA.statusHistory := by
  have h := update_status_write_and_history_row dbA 1 0 updToOffer appA
    Status.offerExtended (by decide) (by decide) (by decide) (by decide)
    (by decide)
  exact ⟨h.1, h.2.2.2.1⟩

/-- C3 counterexample: `POST /api/applications` runs
`JobApplication.create` and the initial `StatusHistory.create` with no
transaction. With the history insert failing, the handler answers 500 yet
the application row is committed and its history is empty — a reachable
state with the application present and no initial history entry. -/
theorem create_commits_application_without_history :
    (createApplicationWith false companyOnlyDB goodCreateReq).1
        = CreateResult.serverError
    ∧ (createApplicationWith false companyOnlyDB goodCreateReq).2.applications
        = [{ id := 0, userId := 1, companyId := 1, jobTitle := "Engineer",
             status := .interested, salaryMin := none, salaryMax := none }]
    ∧ historyFor
        (createApplicationWith false companyOnlyDB goodCreateReq).2.statusHistory 0
        = [] :=
  ⟨by decide, by decide, by decide⟩

/-- C3 amended: a successful create inserts the JobApplication row and then
its initial StatusHistory row (`fromStatus = null`, `toStatus` = the
application's status, `changedBy = "User"`), but the two inserts are not
rolled back together: if the history insert fails, the application row
stays committed with no history entry. -/
theorem create_inserts_app_then_history (db : DB) (r : CreateReq) (cid : Nat)
    (htitle : jobTitleValid r.jobTitle = true)
    (hcid : r.companyId = some cid)
    (hc : db.companies.any (fun c => c.id == cid) = true)
    (hsal : salaryRangeBad r.salaryMin r.salaryMax = false) :
    ((createApplicationWith true db r).2.applications
        = db.applications ++
          [{ id := db.nextAppId, userId := r.userId, companyId := cid,
             jobTitle := strTrim r.jobTitle, status := r.status.getD .interested,
             salaryMin := r.salaryMin, salaryMax := r.salaryMax }]
     ∧ (createApplicationWith true db r).2.statusHistory
        = db.statusHistory ++
          [{ jobApplicationId := db.nextAppId, fromStatus := none,
             toStatus := r.status.getD .interested, changedBy := .user,
             notes := none }])
    ∧ ((createApplicationWith false db r).1 = .serverError
     ∧ (createApplicationWith false db r).2.applications
        = db.applications ++
          [{ id := db.nextAppId, userId := r.userId, companyId := cid,
             jobTitle := strTrim r.jobTitle, status := r.status.getD .interested,
             salaryMin := r.salaryMin, salaryMax := r.salaryMax }]
     ∧ (createApplicationWith false db r).2.statusHistory = db.statusHistory) := by
  simp only [createApplicationWith, htitle, hcid, hc, hsal, Bool.not_true,
    Bool.false_eq_true, if_false, ite_true, ite_false]
  simp

/-- Witness for the C3 amended theorem at `companyOnlyDB` and
`goodCreateReq`. -/
theorem create_inserts_app_then_history_witness :
    (createApplicationWith true companyOnlyDB goodCreateReq).2.statusHistory
        = companyOnlyDB.statusHistory ++
          [{ jobApplicationId := companyOnlyDB.nextAppId, fromStatus := none,
             toStatus := goodCreateReq.status.getD .interested,
             changedBy := .user, notes := none }]
    ∧ (createApplicationWith false companyOnlyDB goodCreateReq).2.statusHistory
        = companyOnlyDB.statusHistory := by
  have h := create_inserts_app_then_history companyOnlyDB goodCreateReq 1
    (by decide) (by decide) (by decide) (by decide)
  exact ⟨h.1.2, h.2.2.2⟩

/-- C4: `DELETE /api/applications/:id` fails NotFound with the store
untouched when the ownership-scoped lookup misses; otherwise, inside one
transaction, it removes the application's StatusHistory rows, its
ApplicationKeyword rows, the Document rows whose `jobApplicationId`
matches, and finally the application row — all or nothing: a failing
transaction rolls back to the original store; the Company rows and any
document not linked to this application survive unchanged. -/
theorem delete_application_cascade (db : DB) (uid aid : Nat) :
    (findOwned db aid uid = none →
      ∀ ok : Bool, deleteApplicationWith ok db uid aid = (.notFound, db))
    ∧ (∀ app : Application, findOwned db aid uid = some app →
        deleteApplicationWith false db uid aid = (.serverError, db)
        ∧ (deleteApplicationWith true db uid aid).1 = .deleted
        ∧ (deleteApplicationWith true db uid aid).2.applications
            = db.applications.filter (fun a => a.id != app.id)
        ∧ (deleteApplicationWith true db uid aid).2.statusHistory
            = db.statusHistory.filter (fun h => h.jobApplicationId != app.id)
        ∧ (deleteApplicationWith true db uid aid).2.applicationKeywords
            = db.applicationKeywords.filter (fun k => k.jobApplicationId != app.id)
        ∧ (deleteApplicationWith true db uid aid).2.documents
            = db.documents.filter (fun d => d.jobApplicationId != some app.id)
        ∧ (deleteApplicationWith true db uid aid).2.companies = db.companies
        ∧ ∀ d ∈ db.documents, d.jobApplicationId ≠ some app.id →
            d ∈ (deleteApplicationWith true db uid aid).2.documents) := by
  constructor
  · intro hnone ok
    simp [deleteApplicationWith, hnone]
  · intro app hfind
    simp only [deleteApplicationWith, hfind, ite_true, ite_false,
      Bool.false_eq_true, if_false, true_and, and_true]
    intro d hd hne
    simp [List.mem_filter, hd]
    exact fun h => absurd h hne

/-- Witness for C4 at `dbDel`: deleting `appA` removes its ledger, keyword
link and linked document, keeps the unlinked document and the company, and
a failed transaction leaves `dbDel` unchanged. -/
theorem delete_application_cascade_witness :
    deleteApplicationWith false dbDel 1 0 = (.serverError, dbDel)
    ∧ (deleteApplicationWith true dbDel 1 0).1 = .deleted
    ∧ (deleteApplicationWith true dbDel 1 0).2.applications
        = dbDel.applications.filter (fun a => a.id != appA.id)
    ∧ (deleteApplicationWith true dbDel 1 0).2.statusHistory
        = dbDel.statusHistory.filter (fun h => h.jobApplicationId != appA.id)
    ∧ (deleteApplicationWith true dbDel 1 0).2.applicationKeywords
        = dbDel.applicationKeywords.filter (fun k => k.jobApplicationId != appA.id)
    ∧ (deleteApplicationWith true dbDel 1 0).2.documents
        = dbDel.documents.filter (fun d => d.jobApplicationId != some appA.id)
    ∧ (deleteApplicationWith true dbDel 1 0).2.companies = dbDel.companies := by
  have h := (delete_application_cascade dbDel 1 0).2 appA (by decide)
  exact ⟨h.1, h.2.1, h.2.2.1, h.2.2.2.1, h.2.2.2.2.1, h.2.2.2.2.2.1,
    h.2.2.2.2.2.2.1⟩

/-- C5: a successful update appends a StatusHistory row exactly when the
request body contains a status that differs from the application's current
status — the appended suffix is the empty list otherwise, so a no-op
transition writes zero rows. -/
theorem update_writes_history_iff (db : DB) (uid aid : Nat) (u : UpdateReq)
    (app : Application)
    (htitle : (u.jobTitle.map jobTitleValid).getD true = true)
    (hfind : findOwned db aid uid = some app)
    (hsal : salaryRangeBad (jsOrNum u.salaryMin app.salaryMin)
      (jsOrNum u.salaryMax app.salaryMax) = false) :
    (updateApplication db uid aid u).2.statusHistory
      = db.statusHistory ++
        (match u.status with
         | some ns =>
             if ns ≠ app.status then
               [{ jobApplicationId := app.id, fromStatus := some app.status,
                  toStatus := ns, changedBy := .user,
                  notes := jsOrNullStr u.statusNotes }]
             else []
         | none => []) := by
  simp only [updateApplication, updateApplicationWith, htitle, hfind, hsal,
    Bool.not_true, Bool.false_eq_true, if_false, ite_true, ite_false]
  cases hstat : u.status with
  | none => simp
  | some ns =>
      by_cases hne : ns = app.status
      · simp [hne]
      · simp [hne]

/-- Witness for C5 on the no-op transition `Applied → Applied` of `appA`:
zero new history rows. -/
theorem update_writes_history_iff_witness :
    (updateApplication dbA 1 0 updToApplied).2.statusHistory
      = dbA.statusHistory := by
  have h := update_writes_history_iff dbA 1 0 updToApplied appA
    (by decide) (by decide) (by decide)
  simpa [updToApplied, appA] using h

/-- C8: the overview statistics' counts agree with the claim's
characterizations — appliedCount is the number of the user's applications
with status ≠ Interested, responseCount the number with status in the
response set — and the response rate is `responseCount / appliedCount *
100` rounded to one decimal place, with exactly `0` (no division) when the
applied count is zero. -/
theorem overview_response_rate_matches_spec (db : DB) (uid : Nat) :
    appliedCount db uid = specAppliedCount db uid
    ∧ responseCount db uid = specResponseCount db uid
    ∧ responseRate db uid = specResponseRate db uid := by
  have hresp : ∀ s : Status,
      responseStatuses.contains s = decide (specIsResponse s) := by
    decide
  have h1 : appliedCount db uid = specAppliedCount db uid := by
    unfold appliedCount specAppliedCount
    rw [List.countP_eq_length_filter]
    congr 1
    apply List.filter_congr
    intro a _
    apply Bool.eq_iff_iff.mpr
    simp
  have h2 : responseCount db uid = specResponseCount db uid := by
    unfold responseCount specResponseCount
    rw [List.countP_eq_length_filter]
    congr 1
    apply List.filter_congr
    intro a _
    rw [hresp a.status]
    apply Bool.eq_iff_iff.mpr
    simp
  refine ⟨h1, h2, ?_⟩
  unfold responseRate specResponseRate
  rw [h1, h2]
  by_cases hz : specAppliedCount db uid = 0
  · simp [hz]
  · have hpos : specAppliedCount db uid > 0 := Nat.pos_of_ne_zero hz
    simp [hz, hpos]

/-- C10: the single-application handlers scope their lookup to the
authenticated requester's rows. For an application owned by user `v`, a
get, update or delete invoked by a different user `u` answers NotFound
and returns the store unchanged — the other user's data is neither
returned nor modified. -/
theorem single_application_ops_owner_scoped (db : DB) (u v aid : Nat)
    (app : Application)
    (hpw : db.applications.Pairwise (fun a b => a.id ≠ b.id))
    (hmem : app ∈ db.applications) (hid : app.id = aid)
    (hown : app.userId = v) (hne : u ≠ v) :
    getApplication db u aid = none
    ∧ (∀ upd : UpdateReq, (upd.jobTitle.map jobTitleValid).getD true = true →
        ∀ ok : Bool, updateApplicationWith ok db u aid upd = (.notFound, db))
    ∧ (∀ ok : Bool, deleteApplicationWith ok db u aid = (.notFound, db)) := by
  have hfo : findOwned db aid u = none :=
    findOwned_other_user_none hpw hmem hid hown hne
  refine ⟨hfo, ?_, ?_⟩
  · intro upd htitle ok
    unfold updateApplicationWith
    simp [htitle, hfo]
  · intro ok
    unfold deleteApplicationWith
    simp [hfo]

/-- Witness for C10: in `dbTwo`, user 2 can neither read, nor update, nor
delete user 1's application `appA`. -/
theorem single_application_ops_owner_scoped_witness :
    getApplication dbTwo 2 0 = none
    ∧ updateApplicationWith true dbTwo 2 0 updToOffer = (.notFound, dbTwo)
    ∧ deleteApplicationWith true dbTwo 2 0 = (.notFound, dbTwo) := by
  have h := single_application_ops_owner_scoped dbTwo 2 1 0 appA
    (by decide) (by decide) (by decide) (by decide) (by decide)
  exact ⟨h.1, h.2.1 updToOffer (by decide) true, h.2.2 true⟩
